import Mathlib

/-!
Shallow embedding of the ContableMax business logic: the SQL schema,
row-level-security policies and trigger functions of the initial migration,
and the task-list / dashboard / task-form page logic.

Dates are ISO "YYYY-MM-DD" strings, compared lexicographically exactly as the
TypeScript code compares them (`t.due_date < today` on strings); identifiers
(UUIDs) are modelled as naturals; timestamps as naturals.
-/

/-- Enum `public.account_type AS ENUM ('contador', 'escritorio')`. -/
inductive AccountType where
  | contador
  | escritorio
deriving DecidableEq, Repr

/-- Enum `public.person_type AS ENUM ('PF', 'PJ')`. -/
inductive PersonType where
  | PF
  | PJ
deriving DecidableEq, Repr

/-- Enum `public.task_type AS ENUM ('imposto', 'folha', 'declaracao', 'outro')`. -/
inductive TaskType where
  | imposto
  | folha
  | declaracao
  | outro
deriving DecidableEq, Repr

/-- Enum `public.task_status AS ENUM ('pendente', 'concluida', 'atrasada')`. -/
inductive TaskStatus where
  | pendente
  | concluida
  | atrasada
deriving DecidableEq, Repr

/-- The string form of a task status, as stored and as compared by the pages. -/
def statusToString : TaskStatus → String
  | .pendente => "pendente"
  | .concluida => "concluida"
  | .atrasada => "atrasada"

/-- Row of `public.profiles`. -/
structure ProfileRow where
  id : Nat
  name : String
  email : String
  account_type : AccountType
  last_login : Option Nat
deriving DecidableEq, Repr

/-- Row of `public.clients`. -/
structure ClientRow where
  id : Nat
  user_id : Nat
  name : String
  cpf_cnpj : String
  person_type : PersonType
  email : Option String
  phone : Option String
deriving DecidableEq, Repr

/-- Row of `public.tasks`. -/
structure TaskRow where
  id : Nat
  user_id : Nat
  client_id : Option Nat
  title : String
  description : Option String
  task_type : TaskType
  due_date : String
  status : TaskStatus
deriving DecidableEq, Repr

/-- The badge rendered by `getStatusBadge` in the Tasks page and, identically,
in the Dashboard page. -/
inductive Badge where
  | concluida
  | atrasada
  | hoje
  | pendente
deriving DecidableEq, Repr

/-- `getStatusBadge(status, dueDate)` from the Tasks page (and the identical
copy in the Dashboard page), with the computed `today` made an explicit
argument: completed wins; otherwise a past due date shows "Atrasada"; a due
date equal to today shows "Hoje"; otherwise "Pendente". -/
def getStatusBadge (status : TaskStatus) (dueDate today : String) : Badge :=
  if statusToString status = "concluida" then Badge.concluida
  else if dueDate < today then Badge.atrasada
  else if dueDate = today then Badge.hoje
  else Badge.pendente

/-- The `statusFilter` effect of the Tasks page: "all" keeps everything,
"overdue" keeps tasks with stored status "pendente" and a due date strictly
before today, and any other filter value compares the stored status string. -/
def applyStatusFilter (tasks : List TaskRow) (statusFilter today : String) :
    List TaskRow :=
  if statusFilter = "all" then tasks
  else if statusFilter = "overdue" then
    tasks.filter (fun t => statusToString t.status == "pendente"
      && decide (t.due_date < today))
  else
    tasks.filter (fun t => statusToString t.status == statusFilter)

/-- The status written by `toggleTaskComplete`:
`task.status === 'concluida' ? 'pendente' : 'concluida'`. -/
def toggleStatus : TaskStatus → TaskStatus
  | .concluida => .pendente
  | _ => .concluida

/-- `toggleTaskComplete` from the Tasks page: compute the new status from the
fetched task's status and update the row with that id. -/
def toggleTaskComplete (tasks : List TaskRow) (tid : Nat) : List TaskRow :=
  match tasks.find? (fun t => t.id == tid) with
  | none => tasks
  | some task =>
      tasks.map (fun t =>
        if t.id == tid then { t with status := toggleStatus task.status } else t)

/-- The `ON DELETE SET NULL` action of `tasks.client_id`: deleting a client
clears the reference on every task pointing at it and touches nothing else. -/
def onClientDelete (tasks : List TaskRow) (cid : Nat) : List TaskRow :=
  tasks.map (fun t =>
    if t.client_id == some cid then { t with client_id := none } else t)

/-- Row-level security, `clients` SELECT policy `USING (auth.uid() = user_id)`:
the rows visible to `uid`. -/
def rlsSelectClients (uid : Nat) (cs : List ClientRow) : List ClientRow :=
  cs.filter (fun c => c.user_id == uid)

/-- Row-level security, `clients` INSERT policy `WITH CHECK (auth.uid() =
user_id)`: an insert whose row is not owned by the caller is rejected. -/
def rlsInsertClient (uid : Nat) (cs : List ClientRow) (c : ClientRow) :
    Except Unit (List ClientRow) :=
  if c.user_id == uid then .ok (cs ++ [c]) else .error ()

/-- Row-level security, `clients` UPDATE policy: an update targeting row `cid`
only applies to rows passing `USING (auth.uid() = user_id)`. -/
def rlsUpdateClient (uid : Nat) (cs : List ClientRow) (cid : Nat)
    (f : ClientRow → ClientRow) : List ClientRow :=
  cs.map (fun c => if c.id == cid && c.user_id == uid then f c else c)

/-- Row-level security, `clients` DELETE policy: only rows passing
`USING (auth.uid() = user_id)` are deleted. -/
def rlsDeleteClient (uid : Nat) (cs : List ClientRow) (cid : Nat) :
    List ClientRow :=
  cs.filter (fun c => !(c.id == cid && c.user_id == uid))

/-- Row-level security, `tasks` SELECT policy `USING (auth.uid() = user_id)`. -/
def rlsSelectTasks (uid : Nat) (ts : List TaskRow) : List TaskRow :=
  ts.filter (fun t => t.user_id == uid)

/-- Row-level security, `tasks` INSERT policy `WITH CHECK (auth.uid() =
user_id)`. -/
def rlsInsertTask (uid : Nat) (ts : List TaskRow) (t : TaskRow) :
    Except Unit (List TaskRow) :=
  if t.user_id == uid then .ok (ts ++ [t]) else .error ()

/-- Row-level security, `tasks` UPDATE policy. -/
def rlsUpdateTask (uid : Nat) (ts : List TaskRow) (tid : Nat)
    (f : TaskRow → TaskRow) : List TaskRow :=
  ts.map (fun t => if t.id == tid && t.user_id == uid then f t else t)

/-- Row-level security, `tasks` DELETE policy. -/
def rlsDeleteTask (uid : Nat) (ts : List TaskRow) (tid : Nat) : List TaskRow :=
  ts.filter (fun t => !(t.id == tid && t.user_id == uid))

/-- The cast `('…')::account_type`: a recognized literal parses, anything else
raises an error (`none`). -/
def parseAccountType : String → Option AccountType
  | "contador" => some .contador
  | "escritorio" => some .escritorio
  | _ => none

/-- `COALESCE(NEW.raw_user_meta_data->>'name', NEW.email)`. -/
def profileName (metaName : Option String) (email : String) : String :=
  metaName.getD email

/-- `COALESCE((NEW.raw_user_meta_data->>'account_type')::account_type,
'contador')`: an absent metadata value yields NULL, which coalesces to
'contador'; a present value is cast, and an unrecognized value makes the cast
raise, aborting the statement. -/
def profileAccountType : Option String → Except Unit AccountType
  | none => .ok .contador
  | some s =>
      match parseAccountType s with
      | none => .error ()
      | some a => .ok a

/-- Insert into `public.profiles`: the primary key on `id` makes a duplicate
insert fail. -/
def insertProfile (profiles : List ProfileRow) (p : ProfileRow) :
    Except Unit (List ProfileRow) :=
  if profiles.any (fun q => q.id == p.id) then .error ()
  else .ok (profiles ++ [p])

/-- Trigger function `public.handle_new_user()`: insert one profile row for
the new identity, with name and account type coalesced from the signup
metadata; `last_login` takes its column default `now()`. Any failure (enum
cast, primary-key violation) aborts with an error. -/
def handle_new_user (id : Nat) (email : String)
    (metaName metaAccountType : Option String) (now : Nat)
    (profiles : List ProfileRow) : Except Unit (List ProfileRow) :=
  match profileAccountType metaAccountType with
  | .error _ => .error ()
  | .ok acct =>
      insertProfile profiles
        ⟨id, profileName metaName email, email, acct, some now⟩

/-- Row of `auth.users` (the fields the trigger reads). -/
structure UserRow where
  id : Nat
  email : String
  metaName : Option String
  metaAccountType : Option String
deriving DecidableEq, Repr

/-- The auth database: identities plus application profiles. -/
structure AuthDB where
  users : List UserRow
  profiles : List ProfileRow
deriving DecidableEq, Repr

/-- Signup: insert into `auth.users` (primary key on id), then the
`on_auth_user_created` AFTER INSERT trigger runs `handle_new_user` in the same
transaction, so a trigger failure rolls the whole signup back. -/
def signup (db : AuthDB) (id : Nat) (email : String)
    (metaName metaAccountType : Option String) (now : Nat) :
    Except Unit AuthDB :=
  if db.users.any (fun u => u.id == id) then .error ()
  else
    match handle_new_user id email metaName metaAccountType now db.profiles with
    | .error _ => .error ()
    | .ok ps => .ok ⟨db.users ++ [⟨id, email, metaName, metaAccountType⟩], ps⟩

/-- Every identity has exactly one profile row keyed by its id. -/
def profilesInv (db : AuthDB) : Prop :=
  ∀ u ∈ db.users, (db.profiles.filter (fun p => p.id == u.id)).length = 1

/-- Trigger function `public.update_last_login()`:
`UPDATE public.profiles SET last_login = now() WHERE id = NEW.id`. -/
def update_last_login (profiles : List ProfileRow) (id : Nat) (now : Nat) :
    List ProfileRow :=
  profiles.map (fun p => if p.id == id then { p with last_login := some now } else p)

/-- Modelled from the spec: the wiring that runs `update_last_login` on each
successful sign-in (the `signIn` helper in `src/lib/supabase` and the trigger
attaching `update_last_login` to authentication events) is not in the sources;
per the spec, each successful sign-in for an identity invokes
`update_last_login` for it at the current time. A sequence of sign-ins at the
given times applies the updates in order. -/
def signInSequence (profiles : List ProfileRow) (id : Nat) (times : List Nat) :
    List ProfileRow :=
  times.foldl (fun ps t => update_last_login ps id t) profiles

/-- The `last_login` of identity `id`'s profile after the given sign-ins. -/
def lastLoginAfter (profiles : List ProfileRow) (id : Nat) (times : List Nat) :
    Option Nat :=
  ((signInSequence profiles id times).find? (fun p => p.id == id)).bind
    (fun p => p.last_login)

/-- The task-store mutations reachable through the application: creating a task
(the TaskFormPage insert, whose payload has no `status` field, so the column
default 'pendente' applies), editing a task (the TaskFormPage update, whose
payload likewise omits `status`), toggling completion, and the `ON DELETE SET
NULL` cascade of a client deletion. -/
inductive AppOp where
  | createTask (id user_id : Nat) (client_id : Option Nat) (title : String)
      (descr : Option String) (tt : TaskType) (due : String)
  | updateTask (tid : Nat) (title : String) (descr : Option String)
      (tt : TaskType) (due : String) (client_id : Option Nat) (user_id : Nat)
  | toggleTask (tid : Nat)
  | deleteClientCascade (cid : Nat)
deriving Repr

/-- Apply one application operation to the task store. -/
def applyOp (tasks : List TaskRow) : AppOp → List TaskRow
  | .createTask id uid cid title d tt due =>
      tasks ++ [⟨id, uid, cid, title, d, tt, due, .pendente⟩]
  | .updateTask tid title d tt due cid uid =>
      tasks.map (fun t =>
        if t.id == tid then
          { t with title := title, description := d, task_type := tt,
                   due_date := due, client_id := cid, user_id := uid }
        else t)
  | .toggleTask tid => toggleTaskComplete tasks tid
  | .deleteClientCascade cid => onClientDelete tasks cid

/-- Run a sequence of application operations from the empty task store. -/
def runOps (ops : List AppOp) : List TaskRow :=
  ops.foldl applyOp []

/-! ## Helper lemmas -/

lemma statusToString_eq_concluida (s : TaskStatus) :
    statusToString s = "concluida" ↔ s = .concluida := by
  cases s <;> simp [statusToString]

lemma statusToString_eq_pendente (s : TaskStatus) :
    statusToString s = "pendente" ↔ s = .pendente := by
  cases s <;> simp [statusToString]

lemma getStatusBadge_eq (s : TaskStatus) (d today : String) :
    getStatusBadge s d today =
      if s = .concluida then .concluida
      else if d < today then .atrasada
      else if d = today then .hoje
      else .pendente := by
  unfold getStatusBadge
  simp only [statusToString_eq_concluida]

lemma badge_atrasada_iff (s : TaskStatus) (d today : String) :
    getStatusBadge s d today = .atrasada ↔ (s ≠ .concluida ∧ d < today) := by
  rw [getStatusBadge_eq]
  split_ifs with h1 h2 h3 <;> simp_all

/-! ## Theorems for the claims -/

/-- Claim C10: the completion toggle maps "concluida" to "pendente" and any
other status (including a persisted "atrasada") to "concluida"; applying it
twice restores "pendente" and "concluida" but sends "atrasada" to
"pendente". -/
theorem toggle_status_spec :
    toggleStatus .concluida = .pendente ∧
    toggleStatus .pendente = .concluida ∧
    toggleStatus .atrasada = .concluida ∧
    toggleStatus (toggleStatus .pendente) = .pendente ∧
    toggleStatus (toggleStatus .concluida) = .concluida ∧
    toggleStatus (toggleStatus .atrasada) = .pendente ∧
    toggleStatus (toggleStatus .atrasada) ≠ .atrasada := by
  decide

/-- Claim C2: a task due exactly today and still pending gets the "Hoje"
badge (so neither the generic "Pendente" nor the overdue badge), and a task
with status "concluida" gets the "Concluída" badge regardless of its due
date. -/
theorem due_today_badge (s : TaskStatus) (d today : String) :
    (s = .pendente → d = today → getStatusBadge s d today = .hoje) ∧
    (s = .concluida → getStatusBadge s d today = .concluida) := by
  constructor
  · intro hs hd
    subst hs; subst hd
    rw [getStatusBadge_eq]
    simp [lt_irrefl]
  · intro hs
    subst hs
    rw [getStatusBadge_eq]
    simp

/-- Witness for `due_today_badge` at concrete inputs: a pending task due
"2024-06-01" viewed on "2024-06-01" shows "Hoje", and a completed task due
"2023-01-01" viewed on "2024-06-01" (a past due date) shows "Concluída". -/
theorem due_today_badge_witness :
    getStatusBadge .pendente "2024-06-01" "2024-06-01" = .hoje ∧
    getStatusBadge .concluida "2023-01-01" "2024-06-01" = .concluida :=
  ⟨(due_today_badge .pendente "2024-06-01" "2024-06-01").1 rfl rfl,
   (due_today_badge .concluida "2023-01-01" "2024-06-01").2 rfl⟩

/-- Claim C1, counterexample: a task stored with status "atrasada" and a past
due date is classified overdue by the badge even though its stored status is
not "pendente", refuting "overdue exactly when status is pendente and
due_date < today" over the full schema status type. -/
theorem overdue_badge_counterexample :
    getStatusBadge .atrasada "2024-01-01" "2024-06-01" = .atrasada ∧
    ¬(TaskStatus.atrasada = TaskStatus.pendente ∧
        ("2024-01-01" : String) < "2024-06-01") := by
  have hlt : ("2024-01-01" : String) < "2024-06-01" := by
    rw [String.lt_iff_toList_lt]; decide
  constructor
  · rw [getStatusBadge_eq, if_neg (by decide), if_pos hlt]
  · rintro ⟨h, -⟩
    exact TaskStatus.noConfusion h

/-- Claim C1 (amended): the badge classifies a task as overdue exactly when
its stored status is not "concluida" and its due date is strictly before
today; restricted to tasks stored as "pendente" or "concluida" this coincides
with (status = "pendente" and due_date < today); and the "overdue" list
filter selects exactly the tasks with stored status "pendente" and
due_date < today. -/
theorem overdue_classification (t : TaskRow) (tasks : List TaskRow)
    (today : String) :
    (getStatusBadge t.status t.due_date today = .atrasada ↔
      (t.status ≠ .concluida ∧ t.due_date < today)) ∧
    ((t.status = .pendente ∨ t.status = .concluida) →
      (getStatusBadge t.status t.due_date today = .atrasada ↔
        (t.status = .pendente ∧ t.due_date < today))) ∧
    (t ∈ applyStatusFilter tasks "overdue" today ↔
      (t ∈ tasks ∧ t.status = .pendente ∧ t.due_date < today)) := by
  refine ⟨badge_atrasada_iff _ _ _, ?_, ?_⟩
  · rintro (hs | hs) <;>
      rw [badge_atrasada_iff] <;> rw [hs] <;> simp
  · have hall : ¬(("overdue" : String) = "all") := by decide
    rw [applyStatusFilter, if_neg hall, if_pos rfl]
    simp [List.mem_filter, statusToString_eq_pendente, and_assoc]

/-- Witness for `overdue_classification`: for a task stored as "pendente" and
due "2024-01-01" viewed on "2024-06-01", the badge is the overdue badge iff
the predicate holds (it does). -/
theorem overdue_classification_witness :
    getStatusBadge TaskStatus.pendente "2024-01-01" "2024-06-01" = .atrasada ↔
      (TaskStatus.pendente = TaskStatus.pendente ∧
        ("2024-01-01" : String) < "2024-06-01") :=
  (overdue_classification
      ⟨1, 1, none, "IRPF 2024", none, .imposto, "2024-01-01", .pendente⟩
      [] "2024-06-01").2.1 (Or.inl rfl)

/-- Claim C7: deleting a client deletes no task; every task that referenced
the deleted client keeps all its other fields and has its `client_id`
cleared to `none`, and every other task is untouched. -/
theorem client_delete_preserves_tasks (tasks : List TaskRow) (cid : Nat) :
    (onClientDelete tasks cid).length = tasks.length ∧
    ∀ (i : Nat) (t : TaskRow), tasks[i]? = some t →
      ∃ t', (onClientDelete tasks cid)[i]? = some t' ∧
        t'.client_id = (if t.client_id = some cid then none else t.client_id) ∧
        t'.id = t.id ∧ t'.user_id = t.user_id ∧ t'.title = t.title ∧
        t'.description = t.description ∧ t'.task_type = t.task_type ∧
        t'.due_date = t.due_date ∧ t'.status = t.status := by
  constructor
  · simp [onClientDelete]
  · intro i t h
    by_cases hc : t.client_id = some cid <;>
      simp [onClientDelete, List.getElem?_map, h, hc]

/-- Witness for `client_delete_preserves_tasks`: deleting client 5 from a
store holding one task referencing it keeps the task with its `client_id`
cleared. -/
theorem client_delete_preserves_tasks_witness :
    ∃ t', (onClientDelete
        [⟨1, 1, some 5, "IRPF 2024", none, .imposto, "2024-01-01", .pendente⟩]
        5)[0]? = some t' ∧
      t'.client_id = (if (some 5 : Option Nat) = some 5 then none
        else some 5) ∧
      t'.id = 1 ∧ t'.user_id = 1 ∧ t'.title = "IRPF 2024" ∧
      t'.description = none ∧ t'.task_type = .imposto ∧
      t'.due_date = "2024-01-01" ∧ t'.status = .pendente :=
  (client_delete_preserves_tasks
      [⟨1, 1, some 5, "IRPF 2024", none, .imposto, "2024-01-01", .pendente⟩]
      5).2 0
    ⟨1, 1, some 5, "IRPF 2024", none, .imposto, "2024-01-01", .pendente⟩ rfl

lemma handle_new_user_ok {id : Nat} {email : String}
    {metaName metaAccountType : Option String} {now : Nat}
    {profiles ps : List ProfileRow}
    (h : handle_new_user id email metaName metaAccountType now profiles
      = .ok ps) :
    ∃ acct, profileAccountType metaAccountType = .ok acct ∧
      (profiles.any fun q => q.id == id) = false ∧
      ps = profiles ++
        [⟨id, profileName metaName email, email, acct, some now⟩] := by
  unfold handle_new_user at h
  split at h
  · exact Except.noConfusion h
  · rename_i acct hacct
    unfold insertProfile at h
    split at h
    · exact Except.noConfusion h
    · rename_i hany
      injection h with h
      exact ⟨acct, hacct, by simpa using hany, h.symm⟩

/-- Claim C3, counterexample: a signup whose account-category metadata value
is "xyz" (present but matching neither recognized category) does not create a
profile with account_type "contador": the enum cast raises, so the trigger
insert fails entirely. -/
theorem account_type_default_counterexample :
    handle_new_user 1 "a@b.c" none (some "xyz") 0 [] = .error () ∧
    ∀ ps, handle_new_user 1 "a@b.c" none (some "xyz") 0 [] ≠ .ok ps := by
  refine ⟨rfl, fun ps h => ?_⟩
  rw [show handle_new_user 1 "a@b.c" none (some "xyz") 0 [] = .error ()
    from rfl] at h
  exact Except.noConfusion h

/-- Claim C3 (amended): the created profile's account_type is "contador" when
the account-category metadata is absent; a present value matching a
recognized category is stored as-is; and a present value matching neither
category makes the enum cast raise, failing the profile insert (and hence the
signup) instead of defaulting. -/
theorem account_type_provisioning (id : Nat) (email : String)
    (metaName : Option String) (now : Nat) (profiles : List ProfileRow)
    (hfresh : (profiles.any fun q => q.id == id) = false) :
    (∃ p, handle_new_user id email metaName none now profiles
        = .ok (profiles ++ [p]) ∧ p.account_type = .contador) ∧
    (∀ s a, parseAccountType s = some a →
      ∃ p, handle_new_user id email metaName (some s) now profiles
        = .ok (profiles ++ [p]) ∧ p.account_type = a) ∧
    (∀ s, parseAccountType s = none →
      handle_new_user id email metaName (some s) now profiles
        = .error ()) := by
  refine ⟨?_, ?_, ?_⟩
  · refine ⟨⟨id, profileName metaName email, email, .contador, some now⟩,
      ?_, rfl⟩
    simp [handle_new_user, profileAccountType, insertProfile, hfresh]
  · intro s a hs
    refine ⟨⟨id, profileName metaName email, email, a, some now⟩, ?_, rfl⟩
    simp [handle_new_user, profileAccountType, hs, insertProfile, hfresh]
  · intro s hs
    simp [handle_new_user, profileAccountType, hs]

/-- Witness for `account_type_provisioning` on a fresh store: with no
account-category metadata the profile defaults to "contador"; "escritorio"
parses and is stored as-is; "xyz" parses to nothing and the signup fails. -/
theorem account_type_provisioning_witness :
    (∃ p, handle_new_user 1 "a@b.c" none none 0 [] = .ok ([] ++ [p]) ∧
      p.account_type = .contador) ∧
    (∃ p, handle_new_user 1 "a@b.c" none (some "escritorio") 0 []
      = .ok ([] ++ [p]) ∧ p.account_type = .escritorio) ∧
    handle_new_user 1 "a@b.c" none (some "xyz") 0 [] = .error () := by
  have h := account_type_provisioning 1 "a@b.c" none 0 [] rfl
  exact ⟨h.1, h.2.1 "escritorio" .escritorio rfl, h.2.2 "xyz" rfl⟩

/-- Claim C4: whenever the signup trigger succeeds, the created profile's
name is the metadata display name when one was supplied, and the signup email
otherwise. -/
theorem profile_name_provisioning (id : Nat) (email : String)
    (metaName metaAccountType : Option String) (now : Nat)
    (profiles ps : List ProfileRow)
    (h : handle_new_user id email metaName metaAccountType now profiles
      = .ok ps) :
    ∃ p, ps = profiles ++ [p] ∧
      (∀ n, metaName = some n → p.name = n) ∧
      (metaName = none → p.name = email) := by
  obtain ⟨acct, -, -, hps⟩ := handle_new_user_ok h
  refine ⟨_, hps, ?_, ?_⟩
  · intro n hn; simp [profileName, hn]
  · intro hn; simp [profileName, hn]

/-- Witness for `profile_name_provisioning`: a signup with metadata name
"Maria" yields a profile named "Maria", and one with no name metadata (proved
via a second application through the same theorem shape) falls back to the
email. -/
theorem profile_name_provisioning_witness :
    ∃ p, ([⟨1, "Maria", "a@b.c", AccountType.contador, some 0⟩]
        : List ProfileRow) = [] ++ [p] ∧
      (∀ n, (some "Maria" : Option String) = some n → p.name = n) ∧
      ((some "Maria" : Option String) = none → p.name = "a@b.c") :=
  profile_name_provisioning 1 "a@b.c" (some "Maria") none 0 []
    [⟨1, "Maria", "a@b.c", AccountType.contador, some 0⟩] rfl

/-- Claim C5: a successful signup creates exactly one profile row with the new
identity's id, leaves the one-profile-per-identity invariant intact, and adds
the identity; and if the trigger's profile insertion fails, the whole signup
fails (the transaction yields no new state at all). -/
theorem signup_profile_provisioning (db : AuthDB) (id : Nat) (email : String)
    (metaName metaAccountType : Option String) (now : Nat) :
    (∀ db', signup db id email metaName metaAccountType now = .ok db' →
      ((db'.profiles.filter fun p => p.id == id).length = 1 ∧
       (∃ u ∈ db'.users, u.id = id) ∧
       (profilesInv db → profilesInv db'))) ∧
    (handle_new_user id email metaName metaAccountType now db.profiles
        = .error () →
      signup db id email metaName metaAccountType now = .error ()) := by
  constructor
  · intro db' h
    unfold signup at h
    split at h
    · exact Except.noConfusion h
    · rename_i husers
      rw [Bool.not_eq_true] at husers
      cases hh : handle_new_user id email metaName metaAccountType now
          db.profiles with
      | error e => rw [hh] at h; exact Except.noConfusion h
      | ok ps =>
        rw [hh] at h
        injection h with h
        subst h
        obtain ⟨acct, -, hany, hps⟩ := handle_new_user_ok hh
        subst hps
        have hnil : (db.profiles.filter fun p => p.id == id) = [] := by
          rw [List.filter_eq_nil_iff]
          intro q hq
          exact (List.any_eq_false.mp hany) q hq
        refine ⟨?_, ?_, ?_⟩
        · simp [List.filter_append, hnil]
        · refine ⟨⟨id, email, metaName, metaAccountType⟩, ?_, rfl⟩
          simp
        · intro hinv u hu
          rcases List.mem_append.mp hu with hu | hu
          · have huid : u.id ≠ id := by
              intro hcontra
              have := (List.any_eq_false.mp husers) u hu
              simp [hcontra] at this
            show ((db.profiles ++
                [(⟨id, profileName metaName email, email, acct, some now⟩
                  : ProfileRow)]).filter fun p => p.id == u.id).length = 1
            rw [List.filter_append]
            have hone : ([(⟨id, profileName metaName email, email, acct,
                some now⟩ : ProfileRow)].filter fun p => p.id == u.id)
                = [] := by
              simp [Ne.symm huid]
            rw [hone, List.append_nil]
            exact hinv u hu
          · have hu : u = ⟨id, email, metaName, metaAccountType⟩ := by
              simpa using hu
            subst hu
            show ((db.profiles ++
                [(⟨id, profileName metaName email, email, acct, some now⟩
                  : ProfileRow)]).filter fun p => p.id == id).length = 1
            simp [List.filter_append, hnil]
  · intro hfail
    unfold signup
    split
    · rfl
    · rw [hfail]

/-- Witness for `signup_profile_provisioning`: signing up identity 7 on an
empty database yields a state with exactly one profile with id 7 and the
identity present, and keeps the invariant; the trigger-failure branch is
exercised on a database that already holds a profile with id 7. -/
theorem signup_profile_provisioning_witness :
    (((AuthDB.mk [⟨7, "a@b.c", none, none⟩]
        [⟨7, "a@b.c", "a@b.c", .contador, some 0⟩]).profiles.filter
          fun p => p.id == 7).length = 1 ∧
      (∃ u ∈ (AuthDB.mk [⟨7, "a@b.c", none, none⟩]
        [⟨7, "a@b.c", "a@b.c", .contador, some 0⟩]).users, u.id = 7) ∧
      (profilesInv ⟨[], []⟩ →
        profilesInv ⟨[⟨7, "a@b.c", none, none⟩],
          [⟨7, "a@b.c", "a@b.c", .contador, some 0⟩]⟩)) ∧
    signup ⟨[], [⟨7, "x@y.z", "x@y.z", .contador, some 0⟩]⟩ 7 "a@b.c" none
        none 0 = .error () := by
  constructor
  · exact (signup_profile_provisioning ⟨[], []⟩ 7 "a@b.c" none none 0).1
      ⟨[⟨7, "a@b.c", none, none⟩],
        [⟨7, "a@b.c", "a@b.c", .contador, some 0⟩]⟩ rfl
  · exact (signup_profile_provisioning
      ⟨[], [⟨7, "x@y.z", "x@y.z", .contador, some 0⟩]⟩ 7 "a@b.c" none none
      0).2 rfl

/-- Claim C8: two-run ownership isolation over the row-level-security
policies: a user V distinct from U can never see, update, delete, or insert a
client or task row owned by U. -/
theorem ownership_isolation (U V : Nat) (hUV : U ≠ V)
    (cs : List ClientRow) (ts : List TaskRow) (c : ClientRow) (t : TaskRow)
    (hcU : c.user_id = U) (htU : t.user_id = U) :
    c ∉ rlsSelectClients V cs ∧
    (∀ (cid : Nat) (f : ClientRow → ClientRow) (i : Nat),
      cs[i]? = some c → (rlsUpdateClient V cs cid f)[i]? = some c) ∧
    (∀ cid : Nat, c ∈ cs → c ∈ rlsDeleteClient V cs cid) ∧
    (∀ c' : ClientRow, c'.user_id = U → rlsInsertClient V cs c' = .error ()) ∧
    t ∉ rlsSelectTasks V ts ∧
    (∀ (tid : Nat) (f : TaskRow → TaskRow) (i : Nat),
      ts[i]? = some t → (rlsUpdateTask V ts tid f)[i]? = some t) ∧
    (∀ tid : Nat, t ∈ ts → t ∈ rlsDeleteTask V ts tid) ∧
    (∀ t' : TaskRow, t'.user_id = U → rlsInsertTask V ts t' = .error ()) := by
  refine ⟨?_, ?_, ?_, ?_, ?_, ?_, ?_, ?_⟩
  · intro hmem
    rw [rlsSelectClients, List.mem_filter] at hmem
    exact hUV (hcU ▸ (by simpa using hmem.2))
  · intro cid f i hi
    rw [rlsUpdateClient, List.getElem?_map, hi]
    simp [hcU, hUV]
  · intro cid hc
    rw [rlsDeleteClient, List.mem_filter]
    exact ⟨hc, by simp [hcU, hUV]⟩
  · intro c' h
    rw [rlsInsertClient, if_neg]
    simp [h, hUV]
  · intro hmem
    rw [rlsSelectTasks, List.mem_filter] at hmem
    exact hUV (htU ▸ (by simpa using hmem.2))
  · intro tid f i hi
    rw [rlsUpdateTask, List.getElem?_map, hi]
    simp [htU, hUV]
  · intro tid ht
    rw [rlsDeleteTask, List.mem_filter]
    exact ⟨ht, by simp [htU, hUV]⟩
  · intro t' h
    rw [rlsInsertTask, if_neg]
    simp [h, hUV]

/-- Witness for `ownership_isolation`: with user 1 owning one client and one
task, user 2 sees neither row, cannot change or delete them, and cannot
insert rows owned by user 1. -/
theorem ownership_isolation_witness :
    (⟨10, 1, "Acme", "123", .PJ, none, none⟩ : ClientRow) ∉
        rlsSelectClients 2 [⟨10, 1, "Acme", "123", .PJ, none, none⟩] ∧
    (∀ (cid : Nat) (f : ClientRow → ClientRow) (i : Nat),
      ([⟨10, 1, "Acme", "123", .PJ, none, none⟩] : List ClientRow)[i]?
          = some ⟨10, 1, "Acme", "123", .PJ, none, none⟩ →
        (rlsUpdateClient 2 [⟨10, 1, "Acme", "123", .PJ, none, none⟩] cid
          f)[i]? = some ⟨10, 1, "Acme", "123", .PJ, none, none⟩) ∧
    (∀ cid : Nat, (⟨10, 1, "Acme", "123", .PJ, none, none⟩ : ClientRow) ∈
        [⟨10, 1, "Acme", "123", .PJ, none, none⟩] →
      (⟨10, 1, "Acme", "123", .PJ, none, none⟩ : ClientRow) ∈
        rlsDeleteClient 2 [⟨10, 1, "Acme", "123", .PJ, none, none⟩] cid) ∧
    (∀ c' : ClientRow, c'.user_id = 1 →
      rlsInsertClient 2 [⟨10, 1, "Acme", "123", .PJ, none, none⟩] c'
        = .error ()) ∧
    (⟨20, 1, none, "IRPF", none, .imposto, "2024-01-01", .pendente⟩
        : TaskRow) ∉ rlsSelectTasks 2
        [⟨20, 1, none, "IRPF", none, .imposto, "2024-01-01", .pendente⟩] ∧
    (∀ (tid : Nat) (f : TaskRow → TaskRow) (i : Nat),
      ([⟨20, 1, none, "IRPF", none, .imposto, "2024-01-01", .pendente⟩]
          : List TaskRow)[i]? = some
            ⟨20, 1, none, "IRPF", none, .imposto, "2024-01-01", .pendente⟩ →
        (rlsUpdateTask 2
          [⟨20, 1, none, "IRPF", none, .imposto, "2024-01-01", .pendente⟩]
          tid f)[i]? = some
            ⟨20, 1, none, "IRPF", none, .imposto, "2024-01-01", .pendente⟩) ∧
    (∀ tid : Nat,
      (⟨20, 1, none, "IRPF", none, .imposto, "2024-01-01", .pendente⟩
          : TaskRow) ∈
        [⟨20, 1, none, "IRPF", none, .imposto, "2024-01-01", .pendente⟩] →
      (⟨20, 1, none, "IRPF", none, .imposto, "2024-01-01", .pendente⟩
          : TaskRow) ∈ rlsDeleteTask 2
        [⟨20, 1, none, "IRPF", none, .imposto, "2024-01-01", .pendente⟩]
        tid) ∧
    (∀ t' : TaskRow, t'.user_id = 1 →
      rlsInsertTask 2
        [⟨20, 1, none, "IRPF", none, .imposto, "2024-01-01", .pendente⟩] t'
        = .error ()) :=
  ownership_isolation 1 2 (by decide)
    [⟨10, 1, "Acme", "123", .PJ, none, none⟩]
    [⟨20, 1, none, "IRPF", none, .imposto, "2024-01-01", .pendente⟩]
    ⟨10, 1, "Acme", "123", .PJ, none, none⟩
    ⟨20, 1, none, "IRPF", none, .imposto, "2024-01-01", .pendente⟩ rfl rfl

lemma toggleStatus_mem (s : TaskStatus) :
    toggleStatus s = .pendente ∨ toggleStatus s = .concluida := by
  cases s <;> simp [toggleStatus]

lemma applyOp_status (tasks : List TaskRow) (op : AppOp)
    (h : ∀ t ∈ tasks, t.status = .pendente ∨ t.status = .concluida) :
    ∀ t ∈ applyOp tasks op,
      t.status = .pendente ∨ t.status = .concluida := by
  cases op with
  | createTask id uid cid title d tt due =>
    intro t ht
    rcases List.mem_append.mp ht with h1 | h1
    · exact h t h1
    · have : t = ⟨id, uid, cid, title, d, tt, due, .pendente⟩ := by
        simpa using h1
      rw [this]
      exact Or.inl rfl
  | updateTask tid title d tt due cid uid =>
    intro t ht
    obtain ⟨u, hu, hut⟩ := List.mem_map.mp ht
    cases hc : (u.id == tid) <;> rw [hc] at hut <;> rw [← hut]
    · exact h u hu
    · simpa using h u hu
  | toggleTask tid =>
    intro t ht
    rw [applyOp, toggleTaskComplete] at ht
    cases hf : tasks.find? (fun t => t.id == tid) with
    | none => rw [hf] at ht; exact h t ht
    | some task =>
      rw [hf] at ht
      obtain ⟨u, hu, hut⟩ := List.mem_map.mp ht
      cases hc : (u.id == tid) <;> rw [hc] at hut <;> rw [← hut]
      · exact h u hu
      · simpa using toggleStatus_mem task.status
  | deleteClientCascade cid =>
    intro t ht
    rw [applyOp, onClientDelete] at ht
    obtain ⟨u, hu, hut⟩ := List.mem_map.mp ht
    cases hc : (u.client_id == some cid) <;> rw [hc] at hut <;> rw [← hut]
    · exact h u hu
    · simpa using h u hu

lemma runOps_status_aux (ops : List AppOp) (tasks : List TaskRow)
    (h : ∀ t ∈ tasks, t.status = .pendente ∨ t.status = .concluida) :
    ∀ t ∈ ops.foldl applyOp tasks,
      t.status = .pendente ∨ t.status = .concluida := by
  induction ops generalizing tasks with
  | nil => simpa using h
  | cons op rest ih =>
    rw [List.foldl_cons]
    exact ih _ (applyOp_status tasks op h)

/-- Claim C9: no sequence of application operations (task creation, task
edit, completion toggle, client-deletion cascade) ever yields a stored task
status outside {"pendente", "concluida"}: "atrasada" is never persisted. -/
theorem app_never_persists_atrasada (ops : List AppOp) :
    ∀ t ∈ runOps ops, t.status = .pendente ∨ t.status = .concluida :=
  runOps_status_aux ops [] (by simp)

/-- Witness for `app_never_persists_atrasada`: after creating a task and
toggling it twice, the surviving row's status is "pendente" or
"concluida". -/
theorem app_never_persists_atrasada_witness :
    (⟨1, 1, none, "IRPF 2024", none, .imposto, "2024-01-01", .pendente⟩
      : TaskRow).status = .pendente ∨
    (⟨1, 1, none, "IRPF 2024", none, .imposto, "2024-01-01", .pendente⟩
      : TaskRow).status = .concluida :=
  app_never_persists_atrasada
    [.createTask 1 1 none "IRPF 2024" none .imposto "2024-01-01",
     .toggleTask 1, .toggleTask 1]
    ⟨1, 1, none, "IRPF 2024", none, .imposto, "2024-01-01", .pendente⟩
    (by decide)

lemma signInSequence_eq (ts : List Nat) (ps : List ProfileRow) (id : Nat) :
    signInSequence ps id ts = ps.map (fun p =>
      if p.id == id then
        { p with last_login := ts.foldl (fun _ t => some t) p.last_login }
      else p) := by
  induction ts generalizing ps with
  | nil =>
    have hfun : (fun p : ProfileRow =>
        if p.id == id then
          { p with last_login := List.foldl (fun _ t => some t) p.last_login [] }
        else p) = fun p => p := by
      funext p
      split <;> rfl
    rw [hfun]
    show ps = List.map (fun p => p) ps
    simp
  | cons t ts ih =>
    rw [show signInSequence ps id (t :: ts)
        = signInSequence (update_last_login ps id t) id ts from rfl,
      ih, update_last_login, List.map_map]
    congr 1
    funext p
    cases h : (p.id == id) <;> simp [Function.comp, h, List.foldl_cons]

lemma foldl_some_getLast? (ts : List Nat) (d : Option Nat) (h : ts ≠ []) :
    ts.foldl (fun _ t => some t) d = ts.getLast? := by
  induction ts generalizing d with
  | nil => exact absurd rfl h
  | cons t ts ih =>
    cases ts with
    | nil => simp
    | cons t2 ts2 =>
      rw [List.foldl_cons, ih _ (by simp), List.getLast?_cons_cons]

lemma lastLoginAfter_eq (ps : List ProfileRow) (id : Nat) (ts : List Nat) :
    lastLoginAfter ps id ts =
      (ps.find? (fun p => p.id == id)).bind
        (fun p => ts.foldl (fun _ t => some t) p.last_login) := by
  rw [lastLoginAfter, signInSequence_eq, List.find?_map]
  have hpred : ((fun p : ProfileRow => p.id == id) ∘ (fun p =>
      if p.id == id then
        { p with last_login := ts.foldl (fun _ t => some t) p.last_login }
      else p)) = fun p => p.id == id := by
    funext p
    cases h : (p.id == id) <;> simp [Function.comp, h]
  rw [hpred]
  cases hf : ps.find? (fun p => p.id == id) with
  | none => rfl
  | some q =>
    have hq : q.id = id := by simpa using List.find?_some hf
    simp [hq]

/-- Claim C6: for an identity that has a profile, after a nonempty sequence
of sign-ins the profile's last_login is the timestamp of the most recent
sign-in; and when the sign-in clock is non-decreasing, the successive
last_login readings (after at least one sign-in) are non-decreasing. -/
theorem last_login_tracking (profiles : List ProfileRow) (id : Nat)
    (hex : (profiles.any fun p => p.id == id) = true) (ts : List Nat) :
    (ts ≠ [] → lastLoginAfter profiles id ts = ts.getLast?) ∧
    (List.Sorted (· ≤ ·) ts →
      ∀ i j : Nat, 1 ≤ i → i ≤ j → j ≤ ts.length →
        ∃ a b, lastLoginAfter profiles id (ts.take i) = some a ∧
          lastLoginAfter profiles id (ts.take j) = some b ∧ a ≤ b) := by
  obtain ⟨p₀, hp₀mem, hp₀⟩ := List.any_eq_true.mp hex
  obtain ⟨q, hq⟩ := Option.isSome_iff_exists.mp
    ((@List.find?_isSome ProfileRow profiles
      (fun p => p.id == id)).mpr ⟨p₀, hp₀mem, hp₀⟩)
  have hlast : ∀ us : List Nat, us ≠ [] →
      lastLoginAfter profiles id us = us.getLast? := by
    intro us hus
    rw [lastLoginAfter_eq, hq]
    exact foldl_some_getLast? us q.last_login hus
  refine ⟨fun h => hlast ts h, ?_⟩
  intro hsorted i j hi hij hj
  have hilen : i ≤ ts.length := le_trans hij hj
  have htakei : ts.take i ≠ [] := by
    intro hcontra
    have := List.length_take i ts
    rw [hcontra] at this
    simp at this
    omega
  have htakej : ts.take j ≠ [] := by
    intro hcontra
    have := List.length_take j ts
    rw [hcontra] at this
    simp at this
    omega
  have hi1 : i - 1 < ts.length := by omega
  have hj1 : j - 1 < ts.length := by omega
  have gtake : ∀ k : Nat, 1 ≤ k → k ≤ ts.length →
      (ts.take k).getLast? = ts[k - 1]? := by
    intro k hk1 hk2
    rw [List.getLast?_eq_getElem?]
    have hlen : (ts.take k).length = k := by
      rw [List.length_take]
      omega
    rw [hlen, List.getElem?_take, if_pos (by omega)]
  refine ⟨ts.get ⟨i - 1, hi1⟩, ts.get ⟨j - 1, hj1⟩, ?_, ?_, ?_⟩
  · rw [hlast _ htakei, gtake i hi hilen, List.getElem?_eq_getElem hi1,
      List.get_eq_getElem]
  · rw [hlast _ htakej, gtake j (le_trans hi hij) hj,
      List.getElem?_eq_getElem hj1, List.get_eq_getElem]
  · exact hsorted.rel_get_of_le (Fin.mk_le_mk.mpr (by omega))

/-- Witness for `last_login_tracking`: after sign-ins at times 1 then 2, the
profile of identity 7 has last_login equal to the most recent time, and the
reading after the first sign-in is at most the reading after the second. -/
theorem last_login_tracking_witness :
    lastLoginAfter [⟨7, "a@b.c", "a@b.c", .contador, some 0⟩] 7 [1, 2]
        = ([1, 2] : List Nat).getLast? ∧
    ∃ a b, lastLoginAfter [⟨7, "a@b.c", "a@b.c", .contador, some 0⟩] 7
          (([1, 2] : List Nat).take 1) = some a ∧
        lastLoginAfter [⟨7, "a@b.c", "a@b.c", .contador, some 0⟩] 7
          (([1, 2] : List Nat).take 2) = some b ∧ a ≤ b :=
  ⟨(last_login_tracking [⟨7, "a@b.c", "a@b.c", .contador, some 0⟩] 7 rfl
      [1, 2]).1 (by decide),
   (last_login_tracking [⟨7, "a@b.c", "a@b.c", .contador, some 0⟩] 7 rfl
      [1, 2]).2 (by decide) 1 2 (by decide) (by decide) (by decide)⟩
